import Mathlib

/-!
# h5_support.cpp: error translation, owned handles, shape checks, extensible arrays

A shallow embedding of `src/h5_support.cpp`.  The HDF5 library is an external
collaborator: it is represented by an oracle that answers every call as a
function of the calls made so far, and every wrapper threads the log of calls
it has made.  A thrown `std::string` is `Except.error`; the shape query, whose
vector constructor can also throw `std::length_error`, has its own type of
thrown objects.
-/

namespace h5

/-! ## The library interface -/

/-- A call into the HDF5 library together with the arguments the wrapper passes. -/
inductive Call where
  | H5Dopen2 (loc : Int) (name : String)
  | H5Dget_space (dset : Int)
  | H5Sget_simple_extent_ndims (space : Int)
  | H5Sget_simple_extent_dims (space : Int)
  | H5Dclose (h : Int)
  | H5Sclose (h : Int)
  | H5Aclose (h : Int)
  | H5Tclose (h : Int)
  | H5Pclose (h : Int)
  | H5LTpath_valid (base : Int) (nm : String) (check_valid : Bool)
  | H5Ldelete (loc : Int) (nm : String)
  | H5Aopen_by_name (h5 : Int) (path : String) (attr_name : String)
  | H5Aget_space (attr : Int)
  | H5Aget_type (attr : Int)
  | H5Tis_variable_str (dtype : Int)
  | H5Tget_size (dtype : Int)
  | H5Aread (attr : Int) (dtype : Int)
  | H5Screate_simple (rank : Nat) (dims : List Nat) (maxdims : List Nat)
  | H5Pcreate
  | H5Pset_chunk (plist : Int) (ndims : Nat) (dim : List Nat)
  | H5Pset_shuffle (plist : Int)
  | H5Pset_fletcher32 (plist : Int)
  | H5Pset_deflate (plist : Int) (level : Nat)
  | H5Dcreate2 (loc : Int) (name : String) (dtype : Int) (space : Int) (dcpl : Int)
  deriving DecidableEq, Repr

/-- What the library hands back: the integer return value, and what it wrote
through an out-pointer (extents for `H5Sget_simple_extent_dims`, raw bytes for
`H5Aread`). -/
structure Reply where
  code : Int
  extents : List Nat := []
  bytes : List Char := []
  deriving DecidableEq, Repr, Inhabited

/-- One library call that was made, with the reply it got. -/
structure Event where
  call : Call
  reply : Reply
  deriving DecidableEq, Repr

/-- The calls made so far, oldest first. -/
abbrev Log := List Event

/-- The library: its answer to a call may depend on every call made before. -/
abbrev Lib := Log → Call → Reply

/-- Perform one library call: ask the oracle and record the event. -/
def h5call (L : Lib) (c : Call) (h : Log) : Reply × Log :=
  (L h c, h ++ [⟨c, L h c⟩])

/-- The library answers the calls `cs`, made one after another starting from
log `h`, with the replies `rs`. -/
def Answers (L : Lib) : Log → List Call → List Reply → Prop
  | _, [], [] => True
  | h, c :: cs, r :: rs => L h c = r ∧ Answers L (h ++ [⟨c, r⟩]) cs rs
  | _, _, _ => False

instance Answers.decidable (L : Lib) :
    (h : Log) → (cs : List Call) → (rs : List Reply) → Decidable (Answers L h cs rs)
  | _, [], [] => isTrue trivial
  | h, c :: cs, r :: rs =>
    match decEq (L h c) r, Answers.decidable L (h ++ [⟨c, r⟩]) cs rs with
    | isTrue h1, isTrue h2 => isTrue ⟨h1, h2⟩
    | isFalse h1, _ => isFalse (fun hA => h1 hA.1)
    | _, isFalse h2 => isFalse (fun hA => h2 hA.2)
  | _, [], _ :: _ => isFalse (fun hA => hA)
  | _, _ :: _, [] => isFalse (fun hA => hA)

/-- A library that answers the k-th call ever made with the k-th entry of a
script (and with code `-1` once the script is used up). -/
def scripted (script : List Reply) : Lib :=
  fun h _ => script.getD h.length ⟨-1, [], []⟩

/-- The calls of a log, without the replies. -/
def calls (h : Log) : List Call := h.map Event.call

/-! ## Error translator -/

/-- `int h5_noerr(int i)`. -/
def h5_noerr (i : Int) : Except String Int :=
  if i < 0 then .error ("error " ++ toString i) else .ok i

/-- `int h5_noerr(const char* nm, int i)`. -/
def h5_noerr_nm (nm : String) (i : Int) : Except String Int :=
  if i < 0 then .error ("error " ++ toString i ++ " in " ++ nm) else .ok i

/-! ## Owned handles -/

/-- Modelled from the spec: the owned-handle type `H5Obj` is declared in
`h5_support.h`.  An owned handle invokes its release operation on the handle
exactly once when its scope ends, on normal exit and on failure unwinding:
`rest` is the remainder of the owning scope, the release call follows it
whatever its outcome. -/
def H5Obj_scope {α : Type} (L : Lib) (deleter : Int → Call) (hid : Int)
    (rest : Int → Log → Except String α × Log) (h : Log) : Except String α × Log :=
  let out := rest hid h
  (out.1, (h5call L (deleter hid) out.2).2)

/-- `H5Obj h5_obj(H5DeleterFunc &deleter, hid_t obj)`, bound to a local
variable: `h5_noerr` rejects a negative raw value before anything is wrapped,
otherwise the owned handle lives for the rest of the scope. -/
def h5_obj {α : Type} (L : Lib) (deleter : Int → Call) (obj : Int)
    (rest : Int → Log → Except String α × Log) (h : Log) : Except String α × Log :=
  match h5_noerr obj with
  | .error e => (.error e, h)
  | .ok hid => H5Obj_scope L deleter hid rest h

/-- The library writes `src` through a pointer to the start of `buf`: the
leading entries are overwritten, the container keeps its length. -/
def write_buf {α : Type} (buf src : List α) : List α :=
  (src ++ buf.drop src.length).take buf.length

/-! ## Shape query -/

/-- What the shape query and the shape validator throw: a `std::string`
carrying a message, or the `std::length_error` of `std::vector`, which is not
a `std::string` and so passes every `catch(const std::string&)`. -/
inductive Thrown where
  | string (msg : String)
  | length_error
  deriving DecidableEq, Repr

/-- A thrown `std::string` as a thrown object. -/
def thrown_string {α : Type} : Except String α → Except Thrown α
  | .error e => .error (.string e)
  | .ok a => .ok a

/-- The `try` block of `get_dset_size`, with `int ndims`.  The first statement
`std::vector<hsize_t> ret(ndims, 0)` converts a negative `ndims` to a size
beyond `max_size()` and throws `std::length_error` before any library call;
every later statement throws a `std::string`. -/
def get_dset_size_try (L : Lib) (ndims : Int) (group : Int) (name : String) (h : Log) :
    Except Thrown (List Nat) × Log :=
  if ndims < 0 then (.error .length_error, h) else
  let ret : List Nat := List.replicate ndims.toNat 0
  let r1 := h5call L (.H5Dopen2 group name) h
  let out := h5_obj L .H5Dclose r1.1.code (fun dset h =>
    let r2 := h5call L (.H5Dget_space dset) h
    h5_obj L .H5Sclose r2.1.code (fun space h =>
      let r3 := h5call L (.H5Sget_simple_extent_ndims space) h
      match h5_noerr r3.1.code with
      | .error e => (.error e, r3.2)
      | .ok ndims_actual =>
        if ndims_actual ≠ ndims then
          (.error ("wrong number of dimensions (expected " ++ toString ndims ++
            ", but got " ++ toString ndims_actual ++ ")"), r3.2)
        else
          let r4 := h5call L (.H5Sget_simple_extent_dims space) r3.2
          match h5_noerr_nm "H5Sget_simple_extent_dims" r4.1.code with
          | .error e => (.error e, r4.2)
          | .ok _ => (.ok (write_buf ret r4.1.extents), r4.2)) r2.2) r1.2
  (thrown_string out.1, out.2)

/-- `std::vector<hsize_t> get_dset_size(int ndims, hid_t group, const char* name)`:
the `try` block, and the handler `catch(const std::string &e)` that prefixes
the name of the array; a `std::length_error` is not caught and propagates
unchanged. -/
def get_dset_size (L : Lib) (ndims : Int) (group : Int) (name : String) (h : Log) :
    Except Thrown (List Nat) × Log :=
  let out := get_dset_size_try L ndims group name h
  match out.1 with
  | .error (.string e) =>
    (.error (.string ("while getting size of '" ++ name ++ "', " ++ e)), out.2)
  | .error .length_error => (.error .length_error, out.2)
  | .ok ret => (.ok ret, out.2)

/-- `bool h5_exists(hid_t base, const char* nm, bool check_valid)`. -/
def h5_exists (L : Lib) (base : Int) (nm : String) (check_valid : Bool) (h : Log) :
    Except String Bool × Log :=
  let r := h5call L (.H5LTpath_valid base nm check_valid) h
  match h5_noerr r.1.code with
  | .error e => (.error e, r.2)
  | .ok v => (.ok (decide (v ≠ 0)), r.2)

/-! ## Shape validator -/

/-- The loops `for(i=0; i<ndim; ++i) msg += to_string(v[i]) + (i<ndim-1 ? ", " : "")`. -/
def append_extents (ndim : Nat) (v : List Nat) (msg : String) : String :=
  (List.range ndim).foldl
    (fun msg i => msg ++ (toString (v.getD i 0) ++ (if i < ndim - 1 then ", " else ""))) msg

/-- The message `check_size` throws on the first differing extent. -/
def check_size_msg (name : String) (sz dims : List Nat) : String :=
  let ndim := sz.length
  let msg := "dimensions of '" ++ name ++ "', expected ("
  let msg := append_extents ndim sz msg
  let msg := msg ++ ") but got ("
  let msg := append_extents ndim dims msg
  msg ++ ")"

/-- `void check_size(hid_t group, const char* name, std::vector<size_t> sz)`. -/
def check_size (L : Lib) (group : Int) (name : String) (sz : List Nat) (h : Log) :
    Except Thrown Unit × Log :=
  let ndim := sz.length
  let out := get_dset_size L (ndim : Int) group name h
  match out.1 with
  | .error e => (.error e, out.2)
  | .ok dims =>
    ((List.range ndim).forM (fun d =>
        if dims.getD d 0 ≠ sz.getD d 0 then
          (.error (.string (check_size_msg name sz dims)) : Except Thrown Unit)
        else pure ()),
     out.2)


/-- The message the spec describes for a shape mismatch: the extents separated
by a comma and a blank. -/
def comma_separated : List Nat → String
  | [] => ""
  | [a] => toString a
  | a :: b :: rest => toString a ++ ", " ++ comma_separated (b :: rest)

/-- The single message listing the full expected and the full actual shape. -/
def expected_but_got (name : String) (expected actual : List Nat) : String :=
  "dimensions of '" ++ name ++ "', expected (" ++ comma_separated expected ++
    ") but got (" ++ comma_separated actual ++ ")"

/-! ## Group accessors -/

/-- `void ensure_not_exist(hid_t loc, const char* nm)`.  The default value of
the `check_valid` argument of `h5_exists` is declared in `h5_support.h` and is
taken as a parameter. -/
def ensure_not_exist (L : Lib) (check_valid : Bool) (loc : Int) (nm : String) (h : Log) :
    Except String Unit × Log :=
  let e := h5_exists L loc nm check_valid h
  match e.1 with
  | .error msg => (.error msg, e.2)
  | .ok true => (.ok (), (h5call L (.H5Ldelete loc nm) e.2).2)
  | .ok false => (.ok (), e.2)

/-! ## Attribute reader -/

/-- The loop `while(tmp.size() && tmp.back() == 0) tmp.pop_back();`.  Every
round shortens `tmp` by one element, so `tmp.length` rounds are enough. -/
def pop_back_loop : Nat → List Char → List Char
  | 0, tmp => tmp
  | fuel + 1, tmp =>
    if tmp ≠ [] ∧ tmp.getLast? = some '\x00' then pop_back_loop fuel tmp.dropLast else tmp

/-- The lambda `g` of `read_attribute`: copy `maxchars` bytes starting at `s`,
pop the trailing null bytes, append the string to `ret`. -/
def read_attribute_g (maxchars : Nat) (_i : Nat) (s : List Char) (ret : List String) :
    List String :=
  let tmp := List.replicate maxchars '\x00'
  let tmp := write_buf tmp (s.take maxchars)
  let tmp := pop_back_loop tmp.length tmp
  ret ++ [String.mk tmp]

/-- Modelled from the spec: `traverse_dataset_iteraction_helper<1,char,F>` is
defined in `h5_support.h`.  It walks the flat buffer in fixed-width windows:
for `i = 0 .. dims[0]-1` in order it hands `f` the index and the element at
offset `i * stride` (here the buffer from that offset on). -/
def traverse_dataset_iteraction_helper {σ : Type} (data : List Char) (dims0 : Nat)
    (f : Nat → List Char → σ → σ) (stride : Nat) (init : σ) : σ :=
  (List.range dims0).foldl (fun acc i => f i (data.drop (i * stride)) acc) init

/-- The `try` block of `read_attribute<std::vector<std::string>>`. -/
def read_attribute_try (L : Lib) (h5 : Int) (path attr_name : String) (h : Log) :
    Except String (List String) × Log :=
  let r1 := h5call L (.H5Aopen_by_name h5 path attr_name) h
  h5_obj L .H5Aclose r1.1.code (fun attr h =>
    let r2 := h5call L (.H5Aget_space attr) h
    h5_obj L .H5Sclose r2.1.code (fun space h =>
      let r3 := h5call L (.H5Aget_type attr) h
      h5_obj L .H5Tclose r3.1.code (fun dtype h =>
        let r4 := h5call L (.H5Tis_variable_str dtype) h
        if r4.1.code ≠ 0 then (.error "variable-length strings not supported", r4.2) else
        let r5 := h5call L (.H5Tget_size dtype) r4.2
        let maxchars : Nat := r5.1.code.toNat
        if maxchars = 0 then (.error "H5Tget_size error", r5.2) else
        let r6 := h5call L (.H5Sget_simple_extent_ndims space) r5.2
        if r6.1.code ≠ 1 then (.error "wrong size for attribute", r6.2) else
        let r7 := h5call L (.H5Sget_simple_extent_dims space) r6.2
        let dims : List Nat := write_buf [0] r7.1.extents
        match h5_noerr r7.1.code with
        | .error e => (.error e, r7.2)
        | .ok _ =>
          let tmp : List Char := List.replicate (dims.getD 0 0 * maxchars + 1) '\x00'
          let r8 := h5call L (.H5Aread attr dtype) r7.2
          let tmp := write_buf tmp r8.1.bytes
          match h5_noerr r8.1.code with
          | .error e => (.error e, r8.2)
          | .ok _ =>
            (.ok (traverse_dataset_iteraction_helper tmp (dims.getD 0 0)
                    (read_attribute_g maxchars) maxchars []), r8.2)) r3.2) r2.2) r1.2

/-- `read_attribute<std::vector<std::string>>(hid_t h5, const char* path, const char* attr_name)`:
the `try` block, and the handler that names the attribute and the path. -/
def read_attribute (L : Lib) (h5 : Int) (path attr_name : String) (h : Log) :
    Except String (List String) × Log :=
  let out := read_attribute_try L h5 path attr_name h
  match out.1 with
  | .error e =>
    (.error ("while reading attribute '" ++ attr_name ++ "' of '" ++ path ++ "', " ++ e), out.2)
  | .ok ret => (.ok ret, out.2)

/-- A window with its trailing null bytes removed and nothing else changed, as
the spec words it. -/
def strip_trailing_nul (window : List Char) : List Char :=
  (window.reverse.dropWhile (fun c => c == '\x00')).reverse

/-- The `i`-th fixed-width window of a raw buffer: bytes `[i*w, (i+1)*w)`. -/
def window (buf : List Char) (w i : Nat) : List Char :=
  (buf.drop (i * w)).take w

/-! ## Extensible array creator -/

/-- The sentinel of the library for an unbounded maximum extent, the all-ones
`hsize_t` (`H5S_UNLIMITED` of the HDF5 headers). -/
def H5S_UNLIMITED : Nat := 2 ^ 64 - 1

/-- Conversion of an `int` to the unsigned 64-bit `hsize_t`. -/
def to_hsize_t (x : Int) : Nat := (x % 2 ^ 64).toNat

/-- The statement
`if(compression_level) h5_noerr(H5Pset_deflate(dcpl_id.get(), compression_level));`
of `create_earray`: the `bool` is converted to the unsigned level argument. -/
def set_deflate (L : Lib) (dcpl_id : Int) (compression_level : Bool) (h : Log) :
    Except String Unit × Log :=
  if compression_level then
    let r := h5call L (.H5Pset_deflate dcpl_id compression_level.toNat) h
    match h5_noerr r.1.code with
    | .error e => (.error e, r.2)
    | .ok _ => (.ok (), r.2)
  else (.ok (), h)

/-- The loop of `create_earray` that fills the vectors `dims_v`, `max_dims_v`
and `chunk_dims_v`, each of `ndims = dims.size()` entries. -/
def fill_dims (dims chunk_dims : List Int) : List Nat × List Nat × List Nat :=
  let ndims := dims.length
  let dims_v : List Nat := (List.range ndims).map (fun d => to_hsize_t (dims.getD d 0))
  let max_dims_v : List Nat := (List.range ndims).map (fun d =>
    if dims_v.getD d 0 ≠ 0 then dims_v.getD d 0 else H5S_UNLIMITED)
  let chunk_dims_v : List Nat :=
    (List.range ndims).map (fun d => to_hsize_t (chunk_dims.getD d 0))
  (dims_v, max_dims_v, chunk_dims_v)

/-- `H5Obj create_earray(group, name, dtype, dims, chunk_dims, bool compression_level)`.
The result is the raw value of the dataset handle whose ownership passes to
the caller. -/
def create_earray (L : Lib) (group : Int) (name : String) (dtype : Int)
    (dims chunk_dims : List Int) (compression_level : Bool) (h : Log) :
    Except String Int × Log :=
  if dims.length ≠ chunk_dims.length then (.error "invalid chunk dims", h) else
  let ndims := dims.length
  let dims_v := (fill_dims dims chunk_dims).1
  let max_dims_v := (fill_dims dims chunk_dims).2.1
  let chunk_dims_v := (fill_dims dims chunk_dims).2.2
  let r1 := h5call L (.H5Screate_simple ndims dims_v max_dims_v) h
  h5_obj L .H5Sclose r1.1.code (fun space_id h =>
    let r2 := h5call L .H5Pcreate h
    h5_obj L .H5Pclose r2.1.code (fun dcpl_id h =>
      let r3 := h5call L (.H5Pset_chunk dcpl_id ndims chunk_dims_v) h
      match h5_noerr r3.1.code with
      | .error e => (.error e, r3.2)
      | .ok _ =>
        let r4 := h5call L (.H5Pset_shuffle dcpl_id) r3.2
        match h5_noerr r4.1.code with
        | .error e => (.error e, r4.2)
        | .ok _ =>
          let r5 := h5call L (.H5Pset_fletcher32 dcpl_id) r4.2
          match h5_noerr r5.1.code with
          | .error e => (.error e, r5.2)
          | .ok _ =>
            let r6 := set_deflate L dcpl_id compression_level r5.2
            match r6.1 with
            | .error e => (.error e, r6.2)
            | .ok _ =>
              let r7 := h5call L (.H5Dcreate2 group name dtype space_id dcpl_id) r6.2
              (h5_noerr r7.1.code, r7.2)) r2.2) r1.2

/-- The implicit conversion C++ applies when a caller writes an integer level
for the parameter `bool compression_level`. -/
def int_to_bool (level : Int) : Bool := decide (level ≠ 0)

/-! ## Bookkeeping of owned handles over a log -/

/-- The release call owed for an event: a handle-returning call that came back
non-negative owes the release the wrappers of this file pair it with. -/
def Event.owes (e : Event) : Option Call :=
  if e.reply.code < 0 then none else
  match e.call with
  | .H5Dopen2 _ _ => some (.H5Dclose e.reply.code)
  | .H5Dget_space _ => some (.H5Sclose e.reply.code)
  | .H5Aopen_by_name _ _ _ => some (.H5Aclose e.reply.code)
  | .H5Aget_space _ => some (.H5Sclose e.reply.code)
  | .H5Aget_type _ => some (.H5Tclose e.reply.code)
  | .H5Screate_simple _ _ _ => some (.H5Sclose e.reply.code)
  | .H5Pcreate => some (.H5Pclose e.reply.code)
  | .H5Dcreate2 _ _ _ _ _ => some (.H5Dclose e.reply.code)
  | _ => none

/-- The handle a release call closes. -/
def Call.closes : Call → Option Int
  | .H5Dclose h => some h
  | .H5Sclose h => some h
  | .H5Aclose h => some h
  | .H5Tclose h => some h
  | .H5Pclose h => some h
  | _ => none

/-- The releases owed by a log, in the order the handles were acquired. -/
def acquired (es : Log) : List Call := es.filterMap Event.owes

/-- The release calls made in a log, in order. -/
def released (es : Log) : List Call := (calls es).filter (fun c => c.closes.isSome)

/-- The handles open after a log, starting from the handles `open0` (counted
with multiplicity): a successful acquisition adds its handle, a release
removes one. -/
def open_handles (open0 : Multiset Int) (es : Log) : Multiset Int :=
  es.foldl (fun s e =>
    match e.call.closes with
    | some h => s.erase h
    | none => if e.owes.isSome then e.reply.code ::ₘ s else s) open0

/-! # Proofs -/

/-! ## Error translator: proofs -/

theorem h5_noerr_of_nonneg {i : Int} (hi : 0 ≤ i) : h5_noerr i = .ok i := by
  unfold h5_noerr
  rw [if_neg (not_lt.mpr hi)]

theorem h5_noerr_of_neg {i : Int} (hi : i < 0) :
    h5_noerr i = .error ("error " ++ toString i) := by
  unfold h5_noerr
  rw [if_pos hi]

theorem h5_noerr_nm_of_nonneg (nm : String) {i : Int} (hi : 0 ≤ i) :
    h5_noerr_nm nm i = .ok i := by
  unfold h5_noerr_nm
  rw [if_neg (not_lt.mpr hi)]

theorem h5_noerr_nm_of_neg (nm : String) {i : Int} (hi : i < 0) :
    h5_noerr_nm nm i = .error ("error " ++ toString i ++ " in " ++ nm) := by
  unfold h5_noerr_nm
  rw [if_pos hi]

/-- C8: for every integer `i` and operation name `nm`, a non-negative `i` is
passed through unchanged by both translators, a negative `i` makes the bare
translator fail with `error <i>` and the named one with `error <i> in <nm>`,
and each of the two fails exactly when `i` is negative. -/
theorem h5_noerr_contract (i : Int) (nm : String) :
    (0 ≤ i → h5_noerr i = .ok i ∧ h5_noerr_nm nm i = .ok i) ∧
    (i < 0 → h5_noerr i = .error ("error " ++ toString i) ∧
      h5_noerr_nm nm i = .error ("error " ++ toString i ++ " in " ++ nm)) ∧
    ((∃ e, h5_noerr i = .error e) ↔ i < 0) ∧
    ((∃ e, h5_noerr_nm nm i = .error e) ↔ i < 0) := by
  refine ⟨fun hi => ⟨h5_noerr_of_nonneg hi, h5_noerr_nm_of_nonneg nm hi⟩,
    fun hi => ⟨h5_noerr_of_neg hi, h5_noerr_nm_of_neg nm hi⟩, ?_, ?_⟩
  · constructor
    · rintro ⟨e, he⟩
      by_contra hn
      rw [h5_noerr_of_nonneg (not_lt.mp hn)] at he
      cases he
    · intro hi
      exact ⟨_, h5_noerr_of_neg hi⟩
  · constructor
    · rintro ⟨e, he⟩
      by_contra hn
      rw [h5_noerr_nm_of_nonneg nm (not_lt.mp hn)] at he
      cases he
    · intro hi
      exact ⟨_, h5_noerr_nm_of_neg nm hi⟩

/-- Witness for C8 at `i = 7` and `i = -12` with the operation name `H5Dopen2`. -/
theorem h5_noerr_contract_witness :
    (h5_noerr 7 = .ok 7 ∧ h5_noerr_nm "H5Dopen2" 7 = .ok 7) ∧
    (h5_noerr (-12) = .error "error -12" ∧
      h5_noerr_nm "H5Dopen2" (-12) = .error "error -12 in H5Dopen2") :=
  ⟨(h5_noerr_contract 7 "H5Dopen2").1 (by decide),
   (h5_noerr_contract (-12) "H5Dopen2").2.1 (by decide)⟩


/-! ## Buffers, loops and messages: helper lemmas -/

theorem write_buf_length {α : Type} (buf src : List α) : (write_buf buf src).length = buf.length := by
  unfold write_buf
  simp [List.length_take, List.length_append, List.length_drop]
  omega

theorem write_buf_exact {α : Type} (buf src : List α) (hlen : src.length = buf.length) :
    write_buf buf src = src := by
  unfold write_buf
  rw [List.drop_of_length_le (le_of_eq hlen.symm), List.append_nil, ← hlen, List.take_length]

theorem eq_of_getD_eq (a b : List Nat) (hlen : a.length = b.length)
    (hget : ∀ d, d < b.length → a.getD d 0 = b.getD d 0) : a = b := by
  apply List.ext_getElem hlen
  intro i h1 h2
  have := hget i h2
  simpa [List.getD_eq_getElem, h1, h2] using this

theorem append_extents_aux (l : List Nat) :
    ∀ (pre : List Nat) (msg : String),
      (List.range' pre.length l.length).foldl
        (fun msg i => msg ++ (toString ((pre ++ l).getD i 0) ++
          (if i < (pre ++ l).length - 1 then ", " else ""))) msg
      = msg ++ comma_separated l := by
  induction l with
  | nil =>
    intro pre msg
    simp [comma_separated]
  | cons a rest ih =>
    intro pre msg
    have hget : (pre ++ a :: rest).getD pre.length 0 = a := by
      rw [List.getD_eq_getElem?_getD, List.getElem?_append_right (le_refl _)]
      simp
    cases rest with
    | nil =>
      simp only [List.length_cons, List.length_nil, List.range', List.foldl_cons, List.foldl_nil,
        hget, comma_separated]
      have : ¬ pre.length < (pre ++ [a]).length - 1 := by simp
      rw [if_neg this, String.append_empty]
    | cons b rest2 =>
      have hlt : pre.length < (pre ++ a :: b :: rest2).length - 1 := by
        simp
      have ih2 := ih (pre ++ [a]) (msg ++ (toString a ++ ", "))
      simp only [List.length_append, List.length_cons, List.length_nil, List.append_assoc,
        List.singleton_append] at ih2
      rw [List.length_cons, List.range', List.foldl_cons, hget, if_pos hlt]
      simp only [List.length_append, List.length_cons] at ih2 ⊢
      rw [ih2, comma_separated]
      simp only [String.append_assoc]

theorem append_extents_eq (l : List Nat) (msg : String) :
    append_extents l.length l msg = msg ++ comma_separated l := by
  have := append_extents_aux l [] msg
  simpa [append_extents, List.range_eq_range'] using this

theorem check_size_msg_eq (name : String) (sz dims : List Nat) (hlen : dims.length = sz.length) :
    check_size_msg name sz dims = expected_but_got name sz dims := by
  unfold check_size_msg expected_but_got
  simp only
  rw [append_extents_eq, ← hlen, append_extents_eq]

/-! ## Shape query and shape validator: proofs -/

theorem negative_rank_length_error (L : Lib) (n : Int) (group : Int) (name : String) (h : Log)
    (hn : n < 0) : get_dset_size L n group name h = (.error .length_error, h) := by
  simp only [get_dset_size, get_dset_size_try, if_pos hn]

theorem get_dset_size_length (L : Lib) (n : Int) (group : Int) (name : String) (h : Log)
    (dims : List Nat) (hok : (get_dset_size L n group name h).1 = .ok dims) :
    dims.length = n.toNat := by
  unfold get_dset_size at hok
  cases hres : (get_dset_size_try L n group name h).1 with
  | error e =>
    cases e <;> simp [hres] at hok
  | ok ret =>
    simp only [hres] at hok
    cases hok
    unfold get_dset_size_try h5_obj H5Obj_scope at hres
    simp only at hres
    repeat' split at hres
    all_goals first
      | (cases hres; done)
      | (simp only [thrown_string] at hres; cases hres; done)
      | (simp only [thrown_string] at hres; cases hres; simp [write_buf_length])

theorem get_dset_size_not_length_error (L : Lib) (n : Int) (group : Int) (name : String)
    (h : Log) (hn : 0 ≤ n) : (get_dset_size L n group name h).1 ≠ .error .length_error := by
  intro herr
  unfold get_dset_size at herr
  cases hres : (get_dset_size_try L n group name h).1 with
  | ok ret => simp [hres] at herr
  | error e =>
    cases e with
    | string msg => simp [hres] at herr
    | length_error =>
      unfold get_dset_size_try at hres
      rw [if_neg (not_lt.mpr hn)] at hres
      simp only at hres
      generalize (h5_obj L Call.H5Dclose _ _ _).1 = x at hres
      cases x <;> cases hres

theorem forM_ok_iff {ε : Type} (f : Nat → Except ε Unit) (l : List Nat) :
    l.forM f = .ok () ↔ ∀ d ∈ l, f d = .ok () := by
  induction l with
  | nil => simp [pure, Except.pure]
  | cons a as ih =>
    simp only [List.forM_cons, List.mem_cons, forall_eq_or_imp]
    cases hfa : f a with
    | error e => simp [bind, Except.bind, hfa]
    | ok u => simpa [bind, Except.bind, hfa] using ih

theorem forM_first_error {ε : Type} (msg : ε) (f : Nat → Except ε Unit) (l : List Nat)
    (hall : ∀ d ∈ l, f d = .ok () ∨ f d = .error msg)
    (hex : ∃ d ∈ l, f d = .error msg) :
    l.forM f = .error msg := by
  induction l with
  | nil =>
    obtain ⟨d, hd, _⟩ := hex
    cases hd
  | cons a as ih =>
    rw [List.forM]
    rcases hall a (List.mem_cons_self a as) with hok | herr
    · have hex2 : ∃ d ∈ as, f d = .error msg := by
        obtain ⟨d, hd, hp⟩ := hex
        rcases List.mem_cons.mp hd with rfl | hmem
        · rw [hok] at hp; cases hp
        · exact ⟨d, hmem, hp⟩
      have := ih (fun d hd => hall d (List.mem_cons_of_mem a hd)) hex2
      simp [hok, bind, Except.bind, this]
    · simp [herr, bind, Except.bind]

theorem check_size_unfold (L : Lib) (group : Int) (name : String) (sz : List Nat) (h : Log)
    (dims : List Nat) (hok : (get_dset_size L sz.length group name h).1 = .ok dims) :
    (check_size L group name sz h).1 = (List.range sz.length).forM (fun d =>
        if dims.getD d 0 ≠ sz.getD d 0 then
          (.error (.string (check_size_msg name sz dims)) : Except Thrown Unit)
        else pure ()) := by
  unfold check_size
  simp only [hok]

theorem check_size_error (L : Lib) (group : Int) (name : String) (sz : List Nat) (h : Log)
    (e : Thrown) (herr : (get_dset_size L sz.length group name h).1 = .error e) :
    (check_size L group name sz h).1 = .error e := by
  unfold check_size
  simp only [herr]

theorem get_dset_size_wrong_rank (L : Lib) (h0 : Log) (n : Int) (group : Int) (name : String)
    (rd rs rm : Reply) (hn : 0 ≤ n)
    (hA : Answers L h0
      [.H5Dopen2 group name, .H5Dget_space rd.code, .H5Sget_simple_extent_ndims rs.code]
      [rd, rs, rm])
    (hd : 0 ≤ rd.code) (hs : 0 ≤ rs.code) (hm : 0 ≤ rm.code) (hne : rm.code ≠ n) :
    (get_dset_size L n group name h0).1 =
      .error (.string ("while getting size of '" ++ name ++
        "', wrong number of dimensions (expected " ++ toString n ++ ", but got " ++
        toString rm.code ++ ")")) := by
  simp only [Answers, and_true] at hA
  obtain ⟨e1, e2, e3⟩ := hA
  simp only [get_dset_size, get_dset_size_try, if_neg (not_lt.mpr hn), h5_obj, H5Obj_scope,
    h5call, e1, e2, e3, h5_noerr_of_nonneg hd, h5_noerr_of_nonneg hs, h5_noerr_of_nonneg hm,
    if_pos hne, thrown_string]
  simp only [String.append_assoc]
  rfl

theorem get_dset_size_extents (L : Lib) (h0 : Log) (n : Int) (group : Int) (name : String)
    (rd rs rm re : Reply) (hn : 0 ≤ n)
    (hA : Answers L h0
      [.H5Dopen2 group name, .H5Dget_space rd.code, .H5Sget_simple_extent_ndims rs.code,
        .H5Sget_simple_extent_dims rs.code]
      [rd, rs, rm, re])
    (hd : 0 ≤ rd.code) (hs : 0 ≤ rs.code) (hm : rm.code = n) (he : 0 ≤ re.code)
    (hlen : (re.extents.length : Int) = n) :
    (get_dset_size L n group name h0).1 = .ok re.extents := by
  simp only [Answers, and_true] at hA
  obtain ⟨e1, e2, e3, e4⟩ := hA
  simp only [get_dset_size, get_dset_size_try, if_neg (not_lt.mpr hn), h5_obj, H5Obj_scope,
    h5call, e1, e2, e3, e4, h5_noerr_of_nonneg hd, h5_noerr_of_nonneg hs, hm,
    h5_noerr_of_nonneg hn, h5_noerr_nm_of_nonneg _ he, ne_eq, not_true_eq_false, if_false,
    thrown_string]
  rw [write_buf_exact]
  rw [List.length_replicate]
  omega

/-- C7, counterexample: with expected rank -1 against a stored array of rank
3 whose dataset and dataspace would open, `get_dset_size` throws the
`std::length_error` of the vector constructor before any library call; the
handler for `std::string` does not apply and the message naming the two ranks
is not produced. -/
theorem get_dset_size_negative_rank_no_message :
    Answers (scripted [⟨10, [], []⟩, ⟨11, [], []⟩, ⟨3, [], []⟩]) []
      [.H5Dopen2 1 "pos", .H5Dget_space 10, .H5Sget_simple_extent_ndims 11]
      [⟨10, [], []⟩, ⟨11, [], []⟩, ⟨3, [], []⟩] ∧
    get_dset_size (scripted [⟨10, [], []⟩, ⟨11, [], []⟩, ⟨3, [], []⟩]) (-1) 1 "pos" [] =
      (.error .length_error, []) ∧
    (get_dset_size (scripted [⟨10, [], []⟩, ⟨11, [], []⟩, ⟨3, [], []⟩]) (-1) 1 "pos" []).1 ≠
      .error (.string
        "while getting size of 'pos', wrong number of dimensions (expected -1, but got 3)") := by
  refine ⟨by decide, rfl, ?_⟩
  intro heq
  have h1 : (get_dset_size (scripted [⟨10, [], []⟩, ⟨11, [], []⟩, ⟨3, [], []⟩]) (-1) 1 "pos"
      []).1 = .error .length_error := rfl
  rw [h1] at heq
  cases heq

/-- C7, amended: for every non-negative expected rank `n`, when the dataset
and its dataspace open and the library reports a non-negative rank `m`
different from `n`, `get_dset_size` fails with exactly `while getting size of
'<name>', wrong number of dimensions (expected n, but got m)`; when the
reported rank is `n` and the extent query succeeds, it returns the `n` extents
the library reported. -/
theorem get_dset_size_rank (L : Lib) (h0 : Log) (n : Int) (group : Int) (name : String)
    (hn : 0 ≤ n) :
    (∀ rd rs rm : Reply,
      Answers L h0
        [.H5Dopen2 group name, .H5Dget_space rd.code, .H5Sget_simple_extent_ndims rs.code]
        [rd, rs, rm] →
      0 ≤ rd.code → 0 ≤ rs.code → 0 ≤ rm.code → rm.code ≠ n →
      (get_dset_size L n group name h0).1 =
        .error (.string ("while getting size of '" ++ name ++
          "', wrong number of dimensions (expected " ++ toString n ++ ", but got " ++
          toString rm.code ++ ")"))) ∧
    (∀ rd rs rm re : Reply,
      Answers L h0
        [.H5Dopen2 group name, .H5Dget_space rd.code, .H5Sget_simple_extent_ndims rs.code,
          .H5Sget_simple_extent_dims rs.code]
        [rd, rs, rm, re] →
      0 ≤ rd.code → 0 ≤ rs.code → rm.code = n → 0 ≤ re.code →
      (re.extents.length : Int) = n →
      (get_dset_size L n group name h0).1 = .ok re.extents) :=
  ⟨fun rd rs rm => get_dset_size_wrong_rank L h0 n group name rd rs rm hn,
   fun rd rs rm re => get_dset_size_extents L h0 n group name rd rs rm re hn⟩

/-- Witness for the amended C7: expected rank 2 against a stored array of rank
3, and expected rank 2 against a stored array of shape (5, 7). -/
theorem get_dset_size_rank_witness :
    (get_dset_size (scripted [⟨10, [], []⟩, ⟨11, [], []⟩, ⟨3, [], []⟩]) 2 1 "pos" []).1 =
      .error (.string
        "while getting size of 'pos', wrong number of dimensions (expected 2, but got 3)") ∧
    (get_dset_size (scripted [⟨10, [], []⟩, ⟨11, [], []⟩, ⟨2, [], []⟩, ⟨2, [5, 7], []⟩])
      2 1 "pos" []).1 = .ok [5, 7] :=
  ⟨(get_dset_size_rank (scripted [⟨10, [], []⟩, ⟨11, [], []⟩, ⟨3, [], []⟩]) [] 2 1 "pos"
      (by decide)).1
      ⟨10, [], []⟩ ⟨11, [], []⟩ ⟨3, [], []⟩ (by decide)
      (by decide) (by decide) (by decide) (by decide),
   (get_dset_size_rank (scripted [⟨10, [], []⟩, ⟨11, [], []⟩, ⟨2, [], []⟩, ⟨2, [5, 7], []⟩])
      [] 2 1 "pos" (by decide)).2
      ⟨10, [], []⟩ ⟨11, [], []⟩ ⟨2, [], []⟩ ⟨2, [5, 7], []⟩ (by decide)
      (by decide) (by decide) (by decide) (by decide) (by decide)⟩

/-- C1: `check_size(group, name, sz)` returns normally exactly when
`get_dset_size(sz.size(), group, name)` returns normally with extents equal to
`sz` element by element, and in every other case it fails (with a message). -/
theorem check_size_iff (L : Lib) (group : Int) (name : String) (sz : List Nat) (h : Log) :
    ((check_size L group name sz h).1 = .ok () ↔
      ∃ dims, (get_dset_size L sz.length group name h).1 = .ok dims ∧
        ∀ d, d < sz.length → dims.getD d 0 = sz.getD d 0) ∧
    ((check_size L group name sz h).1 = .ok () ↔
      (get_dset_size L sz.length group name h).1 = .ok sz) ∧
    ((¬ ∃ dims, (get_dset_size L sz.length group name h).1 = .ok dims ∧
        ∀ d, d < sz.length → dims.getD d 0 = sz.getD d 0) →
      ∃ msg : String, (check_size L group name sz h).1 = .error (.string msg)) := by
  have key : (check_size L group name sz h).1 = .ok () ↔
      ∃ dims, (get_dset_size L sz.length group name h).1 = .ok dims ∧
        ∀ d, d < sz.length → dims.getD d 0 = sz.getD d 0 := by
    cases hg : (get_dset_size L sz.length group name h).1 with
    | error e =>
      rw [check_size_error L group name sz h e hg]
      simp
    | ok dims =>
      rw [check_size_unfold L group name sz h dims hg, forM_ok_iff]
      constructor
      · intro hall
        refine ⟨dims, rfl, fun d hd => ?_⟩
        have := hall d (List.mem_range.mpr hd)
        by_contra hne
        rw [if_pos hne] at this
        cases this
      · rintro ⟨dims2, h2, hall⟩ d hd
        cases h2
        rw [if_neg (not_not.mpr (hall d (List.mem_range.mp hd)))]
        rfl
  refine ⟨key, ?_, ?_⟩
  · rw [key]
    constructor
    · rintro ⟨dims, hg, hall⟩
      have hlen : dims.length = sz.length := by
        have := get_dset_size_length L _ group name h dims hg
        simpa using this
      rw [hg, eq_of_getD_eq dims sz hlen hall]
    · intro hg
      exact ⟨sz, hg, fun _ _ => rfl⟩
  · intro hno
    cases hg : (get_dset_size L sz.length group name h).1 with
    | error e =>
      rw [check_size_error L group name sz h e hg]
      cases e with
      | string msg => exact ⟨msg, rfl⟩
      | length_error =>
        exact absurd hg (get_dset_size_not_length_error L sz.length group name h
          (Int.ofNat_nonneg _))
    | ok dims =>
      have hlen : dims.length = sz.length := by
        have := get_dset_size_length L _ group name h dims hg
        simpa using this
      refine ⟨check_size_msg name sz dims, ?_⟩
      rw [check_size_unfold L group name sz h dims hg]
      apply forM_first_error
      · intro d _
        by_cases hd : dims.getD d 0 ≠ sz.getD d 0
        · right; rw [if_pos hd]
        · left; rw [if_neg hd]; rfl
      · by_contra hnone
        apply hno
        refine ⟨dims, hg, fun d hd => ?_⟩
        by_contra hdne
        exact hnone ⟨d, List.mem_range.mpr hd, by rw [if_pos hdne]⟩

/-- Witness for C1: a stored array of shape (5, 7) passes the check against
(5, 7), and the check against (5, 8) fails. -/
theorem check_size_iff_witness :
    (check_size (scripted [⟨10, [], []⟩, ⟨11, [], []⟩, ⟨2, [], []⟩, ⟨2, [5, 7], []⟩])
      1 "pos" [5, 7] []).1 = .ok () ∧
    ∃ msg : String,
      (check_size (scripted [⟨10, [], []⟩, ⟨11, [], []⟩, ⟨2, [], []⟩, ⟨2, [5, 7], []⟩])
        1 "pos" [5, 8] []).1 = .error (.string msg) :=
  ⟨(check_size_iff _ 1 "pos" [5, 7] []).2.1.mpr rfl,
   (check_size_iff (scripted [⟨10, [], []⟩, ⟨11, [], []⟩, ⟨2, [], []⟩, ⟨2, [5, 7], []⟩])
      1 "pos" [5, 8] []).2.2 (by
        rintro ⟨dims, hg, hall⟩
        have h57 : dims = [5, 7] := by
          have : (get_dset_size (scripted [⟨10, [], []⟩, ⟨11, [], []⟩, ⟨2, [], []⟩,
            ⟨2, [5, 7], []⟩]) 2 1 "pos" []).1 = .ok [5, 7] := rfl
          have hg2 := hg.symm.trans this
          cases hg2
          rfl
        subst h57
        have := hall 1 (by decide)
        simp at this)⟩

theorem expected_but_got_head (name : String) (expected actual : List Nat) :
    (expected_but_got name expected actual).data.head? = some 'd' := by
  simp only [expected_but_got, String.data_append]
  rfl

/-- C2, counterexample: checking the expected shape (2, 3) against a stored
array of rank 3 fails with the message of the shape query, which names the two
ranks and lists no extent; it is not of the form `dimensions of 'pos',
expected (2, 3) but got (...)` for any list of actual extents. -/
theorem check_size_rank_mismatch_lists_no_extent :
    (check_size (scripted [⟨10, [], []⟩, ⟨11, [], []⟩, ⟨3, [], []⟩]) 1 "pos" [2, 3] []).1 =
      .error (.string
        "while getting size of 'pos', wrong number of dimensions (expected 2, but got 3)") ∧
    ∀ actual : List Nat,
      (check_size (scripted [⟨10, [], []⟩, ⟨11, [], []⟩, ⟨3, [], []⟩]) 1 "pos" [2, 3] []).1 ≠
        .error (.string (expected_but_got "pos" [2, 3] actual)) := by
  refine ⟨rfl, fun actual heq => ?_⟩
  have h1 : (check_size (scripted [⟨10, [], []⟩, ⟨11, [], []⟩, ⟨3, [], []⟩]) 1 "pos" [2, 3] []).1 =
      .error (.string
        "while getting size of 'pos', wrong number of dimensions (expected 2, but got 3)") :=
    rfl
  rw [h1] at heq
  have h2 := congrArg (fun s : String => s.data.head?)
    (Thrown.string.inj (Except.error.inj heq))
  simp only [expected_but_got_head] at h2
  cases h2

/-- C2, amended: when the shape query succeeds and the stored extents differ
from the expected ones, `check_size` fails with the single message
`dimensions of '<name>', expected (e1, ..., en) but got (a1, ..., an)` listing
every expected and every actual extent; when instead the stored rank differs
from the expected rank, it fails with the message of `get_dset_size` naming the
two ranks. -/
theorem check_size_message (L : Lib) (group : Int) (name : String) (sz : List Nat) (h : Log) :
    (∀ dims, (get_dset_size L sz.length group name h).1 = .ok dims → dims ≠ sz →
      (check_size L group name sz h).1 = .error (.string (expected_but_got name sz dims))) ∧
    (∀ rd rs rm : Reply,
      Answers L h
        [.H5Dopen2 group name, .H5Dget_space rd.code, .H5Sget_simple_extent_ndims rs.code]
        [rd, rs, rm] →
      0 ≤ rd.code → 0 ≤ rs.code → 0 ≤ rm.code → rm.code ≠ sz.length →
      (check_size L group name sz h).1 =
        .error (.string ("while getting size of '" ++ name ++
          "', wrong number of dimensions (expected " ++ toString sz.length ++ ", but got " ++
          toString rm.code ++ ")"))) := by
  constructor
  · intro dims hg hne
    have hlen : dims.length = sz.length := by
      have := get_dset_size_length L _ group name h dims hg
      simpa using this
    rw [check_size_unfold L group name sz h dims hg, check_size_msg_eq name sz dims hlen]
    apply forM_first_error
    · intro d _
      by_cases hd : dims.getD d 0 ≠ sz.getD d 0
      · right; rw [if_pos hd]
      · left; rw [if_neg hd]; rfl
    · by_contra hno
      apply hne
      apply eq_of_getD_eq dims sz hlen
      intro d hd
      by_contra hdne
      exact hno ⟨d, List.mem_range.mpr hd, by rw [if_pos hdne]⟩
  · intro rd rs rm hA hd hs hm hne
    exact check_size_error L group name sz h _
      (get_dset_size_wrong_rank L h sz.length group name rd rs rm (Int.ofNat_nonneg _)
        hA hd hs hm hne)

/-- Witness for the amended C2: shape (5, 7) checked against (5, 8). -/
theorem check_size_message_witness :
    (check_size (scripted [⟨10, [], []⟩, ⟨11, [], []⟩, ⟨2, [], []⟩, ⟨2, [5, 7], []⟩])
      1 "pos" [5, 8] []).1 =
      .error (.string "dimensions of 'pos', expected (5, 8) but got (5, 7)") ∧
    (check_size (scripted [⟨10, [], []⟩, ⟨11, [], []⟩, ⟨3, [], []⟩]) 1 "pos" [5, 8] []).1 =
      .error (.string
        "while getting size of 'pos', wrong number of dimensions (expected 2, but got 3)") :=
  ⟨(check_size_message (scripted [⟨10, [], []⟩, ⟨11, [], []⟩, ⟨2, [], []⟩, ⟨2, [5, 7], []⟩])
      1 "pos" [5, 8] []).1 [5, 7] rfl (by decide),
   (check_size_message (scripted [⟨10, [], []⟩, ⟨11, [], []⟩, ⟨3, [], []⟩])
      1 "pos" [5, 8] []).2 ⟨10, [], []⟩ ⟨11, [], []⟩ ⟨3, [], []⟩ (by decide)
      (by decide) (by decide) (by decide) (by decide)⟩

/-! ## Owned handles in the shape query: proofs -/

/-- The log of `get_dset_size` is the log of its `try` block. -/
theorem get_dset_size_log (L : Lib) (n : Int) (group : Int) (name : String) (h0 : Log) :
    (get_dset_size L n group name h0).2 = (get_dset_size_try L n group name h0).2 := by
  unfold get_dset_size
  simp only
  split <;> rfl

/-- C10: whatever the library answers and whatever the expected rank, the
release calls `get_dset_size` makes are exactly the ones owed for the handles
it acquired, each once and in reverse order of acquisition (the dataspace
before the dataset); no negative value is ever released; and the handles open
after the call are those open before it. -/
theorem get_dset_size_releases (L : Lib) (h0 : Log) (n : Int) (group : Int) (name : String) :
    (get_dset_size L n group name h0).2 =
      h0 ++ ((get_dset_size L n group name h0).2).drop h0.length ∧
    released (((get_dset_size L n group name h0).2).drop h0.length) =
      (acquired (((get_dset_size L n group name h0).2).drop h0.length)).reverse ∧
    released (((get_dset_size L n group name h0).2).drop h0.length) =
      (if n < 0 then []
       else if (L h0 (.H5Dopen2 group name)).code < 0 then []
       else if (L (h0 ++ [⟨.H5Dopen2 group name, L h0 (.H5Dopen2 group name)⟩])
            (.H5Dget_space (L h0 (.H5Dopen2 group name)).code)).code < 0 then
         [.H5Dclose (L h0 (.H5Dopen2 group name)).code]
       else
         [.H5Sclose (L (h0 ++ [⟨.H5Dopen2 group name, L h0 (.H5Dopen2 group name)⟩])
            (.H5Dget_space (L h0 (.H5Dopen2 group name)).code)).code,
          .H5Dclose (L h0 (.H5Dopen2 group name)).code]) ∧
    (∀ c ∈ released (((get_dset_size L n group name h0).2).drop h0.length),
      ∀ hid, c.closes = some hid → 0 ≤ hid) ∧
    (∀ open0 : Multiset Int,
      open_handles open0 (((get_dset_size L n group name h0).2).drop h0.length) = open0) := by
  rw [get_dset_size_log]
  by_cases hn : n < 0
  · simp [get_dset_size_try, hn, released, acquired, calls, open_handles]
  by_cases hd : (L h0 (.H5Dopen2 group name)).code < 0
  · simp [get_dset_size_try, h5_obj, H5Obj_scope, h5call, h5_noerr_of_neg hd, released, acquired,
      calls, Event.owes, Call.closes, open_handles, hd, hn]
  · have hd0 := not_lt.mp hd
    by_cases hs : (L (h0 ++ [⟨.H5Dopen2 group name, L h0 (.H5Dopen2 group name)⟩])
            (.H5Dget_space (L h0 (.H5Dopen2 group name)).code)).code < 0
    · simp [get_dset_size_try, h5_obj, H5Obj_scope, h5call, h5_noerr_of_nonneg hd0,
        h5_noerr_of_neg hs, released, acquired, calls, Event.owes, Call.closes, open_handles,
        hd, hs, hd0, hn]
    · have hs0 := not_lt.mp hs
      simp only [get_dset_size_try, if_neg hn, h5_obj, H5Obj_scope, h5call,
        h5_noerr_of_nonneg hd0, h5_noerr_of_nonneg hs0]
      split
      · simp [released, acquired, calls, Event.owes, Call.closes, open_handles, hd, hs, hd0, hs0]
      · split
        · simp [released, acquired, calls, Event.owes, Call.closes, open_handles, hd, hs, hd0,
            hs0]
        · split
          · simp [released, acquired, calls, Event.owes, Call.closes, open_handles, hd, hs, hd0,
              hs0]
          · simp [released, acquired, calls, Event.owes, Call.closes, open_handles, hd, hs, hd0,
              hs0]

/-- Witness for C10: a rank mismatch after both handles were opened releases
the dataspace 11 and then the dataset 10. -/
theorem get_dset_size_releases_witness :
    released ((get_dset_size (scripted [⟨10, [], []⟩, ⟨11, [], []⟩, ⟨3, [], []⟩]) 2 1 "pos"
      []).2.drop 0) = [.H5Sclose 11, .H5Dclose 10] ∧
    open_handles {7} ((get_dset_size (scripted [⟨10, [], []⟩, ⟨11, [], []⟩, ⟨3, [], []⟩]) 2 1
      "pos" []).2.drop 0) = {7} :=
  ⟨(get_dset_size_releases (scripted [⟨10, [], []⟩, ⟨11, [], []⟩, ⟨3, [], []⟩]) [] 2 1
      "pos").2.2.1.trans rfl,
   (get_dset_size_releases (scripted [⟨10, [], []⟩, ⟨11, [], []⟩, ⟨3, [], []⟩]) [] 2 1
      "pos").2.2.2.2 {7}⟩

/-! ## Extensible array creator: proofs -/

theorem h5_noerr_error_form {i : Int} {e : String} (h : h5_noerr i = .error e) :
    e = "error " ++ toString i := by
  unfold h5_noerr at h
  split at h
  · cases h; rfl
  · cases h

theorem set_deflate_error_form {L : Lib} {dcpl_id : Int} {cl : Bool} {h : Log} {e : String}
    (herr : (set_deflate L dcpl_id cl h).1 = .error e) : ∃ i : Int, e = "error " ++ toString i := by
  unfold set_deflate at herr
  split at herr
  · simp only at herr
    split at herr
    · cases herr; exact ⟨_, h5_noerr_error_form (by assumption)⟩
    · cases herr
  · cases herr

theorem error_ne_invalid_chunk_dims (s : String) : "error " ++ s ≠ "invalid chunk dims" := by
  intro h
  have h2 := congrArg (fun t : String => t.data.head?) h
  simp only [String.data_append] at h2
  cases h2

theorem create_earray_error_form (L : Lib) (group : Int) (name : String) (dtype : Int)
    (dims chunk_dims : List Int) (compression_level : Bool) (h : Log) (e : String)
    (hlen : dims.length = chunk_dims.length)
    (herr : (create_earray L group name dtype dims chunk_dims compression_level h).1 = .error e) :
    ∃ i : Int, e = "error " ++ toString i := by
  unfold create_earray at herr
  rw [if_neg (not_not.mpr hlen)] at herr
  simp only [h5_obj, H5Obj_scope] at herr
  repeat' split at herr
  all_goals first
    | (cases herr; done)
    | (cases herr; exact ⟨_, h5_noerr_error_form (by assumption)⟩)
    | (cases herr; exact set_deflate_error_form (by assumption))
    | exact ⟨_, h5_noerr_error_form herr⟩

/-- C9: with lists of different lengths `create_earray` fails with `invalid
chunk dims` and the log of library calls is unchanged (no call was made); with
lists of equal length it never fails with that message. -/
theorem create_earray_invalid_chunk_dims (L : Lib) (group : Int) (name : String) (dtype : Int)
    (dims chunk_dims : List Int) (compression_level : Bool) (h : Log) :
    (dims.length ≠ chunk_dims.length →
      create_earray L group name dtype dims chunk_dims compression_level h =
        (.error "invalid chunk dims", h)) ∧
    (dims.length = chunk_dims.length →
      (create_earray L group name dtype dims chunk_dims compression_level h).1 ≠
        .error "invalid chunk dims") := by
  constructor
  · intro hne
    unfold create_earray
    rw [if_pos hne]
  · intro hlen herr
    obtain ⟨i, hi⟩ := create_earray_error_form L group name dtype dims chunk_dims
      compression_level h _ hlen herr
    exact error_ne_invalid_chunk_dims _ hi.symm

/-- Witness for C9: a dims list of length 3 with a chunk-dims list of length 2,
and two lists of length 2. -/
theorem create_earray_invalid_chunk_dims_witness :
    create_earray (scripted []) 1 "pos" 2 [0, 3, 4] [100, 3] true [] =
      (.error "invalid chunk dims", []) ∧
    (create_earray (scripted []) 1 "pos" 2 [0, 3] [100, 3] true []).1 ≠
      .error "invalid chunk dims" :=
  ⟨(create_earray_invalid_chunk_dims (scripted []) 1 "pos" 2 [0, 3, 4] [100, 3] true []).1
      (by decide),
   (create_earray_invalid_chunk_dims (scripted []) 1 "pos" 2 [0, 3] [100, 3] true []).2
      (by decide)⟩

theorem map_range_getD {β : Type} (l : List Int) (f : Int → β) :
    (List.range l.length).map (fun d => f (l.getD d 0)) = l.map f := by
  apply List.ext_getElem
  · simp
  · intro i h1 h2
    simp only [List.length_map, List.length_range] at h1
    simp [List.getD_eq_getElem?_getD, List.getElem?_eq_getElem h1]

theorem to_hsize_t_of_int {x : Int} (h0 : 0 ≤ x) (h1 : x < 2 ^ 31) : to_hsize_t x = x.toNat := by
  unfold to_hsize_t
  rw [Int.emod_eq_of_lt h0 (by omega)]

theorem dims_v_eq (dims : List Int) (hdims : ∀ x ∈ dims, 0 ≤ x ∧ x < 2 ^ 31) :
    (List.range dims.length).map (fun d => to_hsize_t (dims.getD d 0)) = dims.map Int.toNat := by
  rw [map_range_getD dims to_hsize_t]
  apply List.map_congr_left
  intro x hx
  exact to_hsize_t_of_int (hdims x hx).1 (hdims x hx).2

theorem max_dims_v_eq (dims : List Int) (hdims : ∀ x ∈ dims, 0 ≤ x ∧ x < 2 ^ 31) :
    (List.range dims.length).map (fun d =>
      if (dims.map Int.toNat).getD d 0 ≠ 0 then (dims.map Int.toNat).getD d 0
      else H5S_UNLIMITED) =
    dims.map (fun x => if x = 0 then H5S_UNLIMITED else x.toNat) := by
  apply List.ext_getElem
  · simp
  · intro i h1 h2
    simp only [List.length_map, List.length_range] at h1
    have hmem := (hdims dims[i] (List.getElem_mem h1))
    simp only [List.getElem_map, List.getElem_range, List.getD_eq_getElem?_getD,
      List.getElem?_map, List.getElem?_eq_getElem h1, Option.map_some', Option.getD_some]
    by_cases hz : dims[i] = 0
    · simp [hz]
    · have : dims[i].toNat ≠ 0 := by omega
      simp [hz, this]

/-- For equal-length lists of non-negative `int`s the loop stores the sizes,
the sizes with zero replaced by the sentinel, and the chunk sizes. -/
theorem fill_dims_eq (dims chunk_dims : List Int) (hlen : dims.length = chunk_dims.length)
    (hdims : ∀ x ∈ dims, 0 ≤ x ∧ x < 2 ^ 31) (hchunk : ∀ x ∈ chunk_dims, 0 ≤ x ∧ x < 2 ^ 31) :
    fill_dims dims chunk_dims =
      (dims.map Int.toNat, dims.map (fun x => if x = 0 then H5S_UNLIMITED else x.toNat),
        chunk_dims.map Int.toNat) := by
  unfold fill_dims
  simp only [dims_v_eq dims hdims, max_dims_v_eq dims hdims]
  rw [hlen, dims_v_eq chunk_dims hchunk]

theorem create_earray_first_call (L : Lib) (group : Int) (name : String) (dtype : Int)
    (dims chunk_dims : List Int) (compression_level : Bool) (h0 : Log)
    (hlen : dims.length = chunk_dims.length) :
    ∃ r tail, (create_earray L group name dtype dims chunk_dims compression_level h0).2 =
      h0 ++ ⟨.H5Screate_simple dims.length (fill_dims dims chunk_dims).1
        (fill_dims dims chunk_dims).2.1, r⟩ :: tail := by
  unfold create_earray
  rw [if_neg (not_not.mpr hlen)]
  simp only [h5_obj, H5Obj_scope, h5call, set_deflate]
  repeat' split
  all_goals simp [List.append_assoc]

theorem create_earray_chunk_call (L : Lib) (group : Int) (name : String) (dtype : Int)
    (dims chunk_dims : List Int) (compression_level : Bool) (h0 : Log)
    (hlen : dims.length = chunk_dims.length) (rs rp : Reply)
    (hA : Answers L h0
      [.H5Screate_simple dims.length (fill_dims dims chunk_dims).1
        (fill_dims dims chunk_dims).2.1, .H5Pcreate] [rs, rp])
    (hs : 0 ≤ rs.code) (hp : 0 ≤ rp.code) :
    ∃ r tail, (create_earray L group name dtype dims chunk_dims compression_level h0).2 =
      h0 ++ ⟨.H5Screate_simple dims.length (fill_dims dims chunk_dims).1
          (fill_dims dims chunk_dims).2.1, rs⟩ :: ⟨.H5Pcreate, rp⟩ ::
        ⟨.H5Pset_chunk rp.code dims.length (fill_dims dims chunk_dims).2.2, r⟩ :: tail := by
  simp only [Answers, and_true] at hA
  obtain ⟨e1, e2⟩ := hA
  unfold create_earray
  rw [if_neg (not_not.mpr hlen)]
  simp only [h5_obj, H5Obj_scope, h5call, set_deflate, e1, e2, h5_noerr_of_nonneg hs, h5_noerr_of_nonneg hp]
  repeat' split
  all_goals simp [List.append_assoc]

/-- C4: for equal-length lists of non-negative `int`s, the first library call
of `create_earray` builds the dataspace with rank `dims.size()`, initial
extents `dims[d]` and maximum extents `dims[d]`, or the unlimited sentinel
where `dims[d]` is zero; and once the dataspace and the property list exist the
chunk shape is set to `chunk_dims[d]` in every dimension. -/
theorem create_earray_dataspace (L : Lib) (group : Int) (name : String) (dtype : Int)
    (dims chunk_dims : List Int) (compression_level : Bool) (h0 : Log)
    (hlen : dims.length = chunk_dims.length)
    (hdims : ∀ x ∈ dims, 0 ≤ x ∧ x < 2 ^ 31) (hchunk : ∀ x ∈ chunk_dims, 0 ≤ x ∧ x < 2 ^ 31) :
    (∃ r tail, (create_earray L group name dtype dims chunk_dims compression_level h0).2 =
      h0 ++ ⟨.H5Screate_simple dims.length (dims.map Int.toNat)
        (dims.map (fun x => if x = 0 then H5S_UNLIMITED else x.toNat)), r⟩ :: tail) ∧
    (∀ rs rp : Reply,
      Answers L h0
        [.H5Screate_simple dims.length (dims.map Int.toNat)
          (dims.map (fun x => if x = 0 then H5S_UNLIMITED else x.toNat)), .H5Pcreate] [rs, rp] →
      0 ≤ rs.code → 0 ≤ rp.code →
      ∃ r tail, (create_earray L group name dtype dims chunk_dims compression_level h0).2 =
        h0 ++ ⟨.H5Screate_simple dims.length (dims.map Int.toNat)
            (dims.map (fun x => if x = 0 then H5S_UNLIMITED else x.toNat)), rs⟩ ::
          ⟨.H5Pcreate, rp⟩ ::
          ⟨.H5Pset_chunk rp.code dims.length (chunk_dims.map Int.toNat), r⟩ :: tail) := by
  have hf := fill_dims_eq dims chunk_dims hlen hdims hchunk
  constructor
  · have := create_earray_first_call L group name dtype dims chunk_dims compression_level h0 hlen
    rw [hf] at this
    exact this
  · intro rs rp hA hs hp
    have := create_earray_chunk_call L group name dtype dims chunk_dims compression_level h0 hlen
      rs rp (by rw [hf]; exact hA) hs hp
    rw [hf] at this
    exact this

/-- Witness for C4: sizes (0, 3) with chunk sizes (100, 3). -/
theorem create_earray_dataspace_witness :
    ∃ r tail, (create_earray (scripted [⟨4, [], []⟩, ⟨5, [], []⟩]) 1 "pos" 2 [0, 3] [100, 3]
        false []).2 =
      [] ++ ⟨.H5Screate_simple 2 [0, 3] [H5S_UNLIMITED, 3], ⟨4, [], []⟩⟩ :: ⟨.H5Pcreate, ⟨5, [], []⟩⟩ ::
        ⟨.H5Pset_chunk 5 2 [100, 3], r⟩ :: tail :=
  (create_earray_dataspace (scripted [⟨4, [], []⟩, ⟨5, [], []⟩]) 1 "pos" 2 [0, 3] [100, 3]
    false [] (by decide) (by decide) (by decide)).2 ⟨4, [], []⟩ ⟨5, [], []⟩
    (by simp [Answers, scripted]) (by decide) (by decide)

/-- C5, counterexample: a caller that writes compression level 6 has it
converted to `true`; the deflate filter is then set with level 1, and no call
passes level 6 to the library. -/
theorem create_earray_level_six_passes_one :
    calls (create_earray (scripted (List.replicate 7 ⟨4, [], []⟩)) 1 "pos" 2 [0, 3] [100, 3]
      (int_to_bool 6) []).2 =
      [.H5Screate_simple 2 [0, 3] [H5S_UNLIMITED, 3], .H5Pcreate, .H5Pset_chunk 4 2 [100, 3],
        .H5Pset_shuffle 4, .H5Pset_fletcher32 4, .H5Pset_deflate 4 1,
        .H5Dcreate2 1 "pos" 2 4 4, .H5Pclose 4, .H5Sclose 4] ∧
    Call.H5Pset_deflate 4 6 ∉
      calls (create_earray (scripted (List.replicate 7 ⟨4, [], []⟩)) 1 "pos" 2 [0, 3] [100, 3]
        (int_to_bool 6) []).2 := by
  have h : calls (create_earray (scripted (List.replicate 7 ⟨4, [], []⟩)) 1 "pos" 2 [0, 3]
      [100, 3] (int_to_bool 6) []).2 =
      [.H5Screate_simple 2 [0, 3] [H5S_UNLIMITED, 3], .H5Pcreate, .H5Pset_chunk 4 2 [100, 3],
        .H5Pset_shuffle 4, .H5Pset_fletcher32 4, .H5Pset_deflate 4 1,
        .H5Dcreate2 1 "pos" 2 4 4, .H5Pclose 4, .H5Sclose 4] := by rfl
  refine ⟨h, ?_⟩
  rw [h]
  decide

theorem set_deflate_log (L : Lib) (dcpl_id : Int) (cl : Bool) (h : Log) :
    (set_deflate L dcpl_id cl h).2 =
      h ++ (if cl then [⟨.H5Pset_deflate dcpl_id 1, L h (.H5Pset_deflate dcpl_id 1)⟩] else []) := by
  unfold set_deflate
  cases cl
  · simp
  · simp only [if_true, h5call, Bool.toNat_true]
    split <;> rfl

/-- C5, amended: once the dataspace and the property list exist and the chunk,
shuffle and fletcher32 setters succeed, the property list has received the
chunk shape, the shuffle filter and the fletcher32 filter whatever the
compression argument is, and among the calls that follow a deflate call occurs
exactly when the compression argument is true, always with level 1. -/
theorem create_earray_filters (L : Lib) (group : Int) (name : String) (dtype : Int)
    (dims chunk_dims : List Int) (compression_level : Bool) (h0 : Log)
    (hlen : dims.length = chunk_dims.length) (rs rp rc rsh rf : Reply)
    (hA : Answers L h0
      [.H5Screate_simple dims.length (fill_dims dims chunk_dims).1
          (fill_dims dims chunk_dims).2.1,
        .H5Pcreate,
        .H5Pset_chunk rp.code dims.length (fill_dims dims chunk_dims).2.2,
        .H5Pset_shuffle rp.code,
        .H5Pset_fletcher32 rp.code]
      [rs, rp, rc, rsh, rf])
    (hs : 0 ≤ rs.code) (hp : 0 ≤ rp.code) (hc : 0 ≤ rc.code) (hsh : 0 ≤ rsh.code)
    (hf : 0 ≤ rf.code) :
    ∃ tail, (create_earray L group name dtype dims chunk_dims compression_level h0).2 =
        h0 ++ ([⟨.H5Screate_simple dims.length (fill_dims dims chunk_dims).1
            (fill_dims dims chunk_dims).2.1, rs⟩,
          ⟨.H5Pcreate, rp⟩,
          ⟨.H5Pset_chunk rp.code dims.length (fill_dims dims chunk_dims).2.2, rc⟩,
          ⟨.H5Pset_shuffle rp.code, rsh⟩,
          ⟨.H5Pset_fletcher32 rp.code, rf⟩] ++ tail) ∧
      ∀ p lvl, Call.H5Pset_deflate p lvl ∈ calls tail ↔
        (compression_level = true ∧ p = rp.code ∧ lvl = 1) := by
  simp only [Answers, and_true] at hA
  obtain ⟨e1, e2, e3, e4, e5⟩ := hA
  unfold create_earray
  rw [if_neg (not_not.mpr hlen)]
  simp only [h5_obj, H5Obj_scope, h5call, e1, e2, e3, e4, e5, h5_noerr_of_nonneg hs, h5_noerr_of_nonneg hp,
    h5_noerr_of_nonneg hc, h5_noerr_of_nonneg hsh, h5_noerr_of_nonneg hf]
  split
  · cases compression_level
    · refine ⟨_, by simp only [set_deflate_log, List.append_assoc]; rfl, ?_⟩
      simp [calls]
    · refine ⟨_, by simp only [set_deflate_log, List.append_assoc]; rfl, ?_⟩
      intro p lvl
      simp [calls]
  · cases compression_level
    · refine ⟨_, by simp only [set_deflate_log, List.append_assoc]; rfl, ?_⟩
      simp [calls]
    · refine ⟨_, by simp only [set_deflate_log, List.append_assoc]; rfl, ?_⟩
      intro p lvl
      simp [calls]

/-- Witness for the amended C5: sizes (0, 3), chunk sizes (100, 3), compression on. -/
theorem create_earray_filters_witness :
    ∃ tail, (create_earray (scripted (List.replicate 7 ⟨4, [], []⟩)) 1 "pos" 2 [0, 3] [100, 3]
        true []).2 =
        [] ++ ([⟨.H5Screate_simple 2 [0, 3] [H5S_UNLIMITED, 3], ⟨4, [], []⟩⟩,
          ⟨.H5Pcreate, ⟨4, [], []⟩⟩,
          ⟨.H5Pset_chunk 4 2 [100, 3], ⟨4, [], []⟩⟩,
          ⟨.H5Pset_shuffle 4, ⟨4, [], []⟩⟩,
          ⟨.H5Pset_fletcher32 4, ⟨4, [], []⟩⟩] ++ tail) ∧
      ∀ p lvl, Call.H5Pset_deflate p lvl ∈ calls tail ↔ (true = true ∧ p = 4 ∧ lvl = 1) :=
  create_earray_filters (scripted (List.replicate 7 ⟨4, [], []⟩)) 1 "pos" 2 [0, 3] [100, 3]
    true [] (by decide) ⟨4, [], []⟩ ⟨4, [], []⟩ ⟨4, [], []⟩ ⟨4, [], []⟩ ⟨4, [], []⟩
    (by simp [Answers, scripted]) (by decide) (by decide) (by decide) (by decide) (by decide)

/-! ## Attribute reader: proofs -/

theorem strip_trailing_nul_concat_nul (l : List Char) :
    strip_trailing_nul (l ++ ['\x00']) = strip_trailing_nul l := by
  simp [strip_trailing_nul, List.dropWhile]

theorem strip_trailing_nul_concat_other (l : List Char) (c : Char) (hc : c ≠ '\x00') :
    strip_trailing_nul (l ++ [c]) = l ++ [c] := by
  simp [strip_trailing_nul, List.dropWhile, hc]

theorem pop_back_loop_eq (fuel : Nat) :
    ∀ l : List Char, l.length ≤ fuel → pop_back_loop fuel l = strip_trailing_nul l := by
  induction fuel with
  | zero =>
    intro l hl
    have : l = [] := List.length_eq_zero.mp (Nat.le_zero.mp hl)
    subst this
    rfl
  | succ k ih =>
    intro l hl
    rcases List.eq_nil_or_concat l with rfl | ⟨init, c, rfl⟩
    · simp [pop_back_loop, strip_trailing_nul]
    · rw [List.concat_eq_append] at hl ⊢
      by_cases hc : c = '\x00'
      · subst hc
        have hlen : init.length ≤ k := by
          simp only [List.length_append, List.length_singleton] at hl
          omega
        rw [strip_trailing_nul_concat_nul, ← ih init hlen]
        simp [pop_back_loop]
      · rw [strip_trailing_nul_concat_other init c hc]
        simp [pop_back_loop, hc]

/-- Stripping removes a run of null bytes at the end and nothing else, and
what is left does not end in a null byte. -/
theorem strip_trailing_nul_spec (l : List Char) :
    (∃ k, l = strip_trailing_nul l ++ List.replicate k '\x00') ∧
      (strip_trailing_nul l).getLast? ≠ some '\x00' := by
  induction l using List.reverseRecOn with
  | nil => exact ⟨⟨0, rfl⟩, by simp [strip_trailing_nul]⟩
  | append_singleton init c ih =>
    by_cases hc : c = '\x00'
    · subst hc
      rw [strip_trailing_nul_concat_nul]
      obtain ⟨⟨k, hk⟩, hlast⟩ := ih
      refine ⟨⟨k + 1, ?_⟩, hlast⟩
      rw [List.replicate_succ', ← List.append_assoc, ← hk]
    · rw [strip_trailing_nul_concat_other init c hc]
      refine ⟨⟨0, by simp⟩, ?_⟩
      simp [hc]

theorem window_length (buf : List Char) (w n i : Nat) (hlen : buf.length = n * w) (hi : i < n) :
    (window buf w i).length = w := by
  unfold window
  rw [List.length_take, List.length_drop, hlen]
  have : i * w + w ≤ n * w := by
    calc i * w + w = (i + 1) * w := by ring
      _ ≤ n * w := Nat.mul_le_mul_right w hi
  omega

theorem window_of_padded (buf : List Char) (w n i : Nat) (hlen : buf.length = n * w) (hi : i < n) :
    ((write_buf (List.replicate (n * w + 1) '\x00') buf).drop (i * w)).take w = window buf w i := by
  have hle : i * w + w ≤ n * w := by
    calc i * w + w = (i + 1) * w := by ring
      _ ≤ n * w := Nat.mul_le_mul_right w hi
  have hbuf : write_buf (List.replicate (n * w + 1) '\x00') buf = buf ++ ['\x00'] := by
    unfold write_buf
    simp only [List.length_replicate, List.drop_replicate, hlen]
    have : n * w + 1 - n * w = 1 := by omega
    rw [this]
    rw [List.take_of_length_le]
    · rfl
    · simp [hlen]
  rw [hbuf]
  unfold window
  rw [List.drop_append_of_le_length (by omega), List.take_append_of_le_length]
  rw [List.length_drop]
  omega

theorem read_attribute_g_eq (buf : List Char) (w n i : Nat) (hlen : buf.length = n * w) (hi : i < n)
    (ret : List String) :
    read_attribute_g w i ((write_buf (List.replicate (n * w + 1) '\x00') buf).drop (i * w)) ret =
      ret ++ [String.mk (strip_trailing_nul (window buf w i))] := by
  unfold read_attribute_g
  simp only
  rw [window_of_padded buf w n i hlen hi, write_buf_exact]
  · rw [pop_back_loop_eq _ _ (le_refl _)]
  · rw [window_length buf w n i hlen hi, List.length_replicate]

theorem traverse_eq (buf : List Char) (w n : Nat) (hlen : buf.length = n * w) :
    traverse_dataset_iteraction_helper (write_buf (List.replicate (n * w + 1) '\x00') buf) n
      (read_attribute_g w) w [] =
    (List.range n).map (fun i => String.mk (strip_trailing_nul (window buf w i))) := by
  unfold traverse_dataset_iteraction_helper
  have key : ∀ (l : List Nat), (∀ i ∈ l, i < n) → ∀ init : List String,
      l.foldl (fun acc i => read_attribute_g w i
        ((write_buf (List.replicate (n * w + 1) '\x00') buf).drop (i * w)) acc) init =
      init ++ l.map (fun i => String.mk (strip_trailing_nul (window buf w i))) := by
    intro l
    induction l with
    | nil => intro _ init; simp
    | cons a as ih =>
      intro hall init
      rw [List.foldl_cons, read_attribute_g_eq buf w n a hlen (hall a (List.mem_cons_self a as)),
        ih (fun i hi => hall i (List.mem_cons_of_mem a hi))]
      simp
  have := key (List.range n) (fun i hi => List.mem_range.mp hi) []
  simpa using this

/-- C3: when the attribute, its dataspace and its type open, the type is not
variable-length, the element width is `w >= 1`, the rank is 1, the extent is
`n` and the read delivers `n*w` bytes, `read_attribute` returns exactly `n`
strings, the `i`-th being bytes `[i*w, (i+1)*w)` of the buffer with its
trailing null bytes removed and nothing else changed. -/
theorem read_attribute_strings (L : Lib) (h5 : Int) (path attr_name : String) (h0 : Log)
    (ra rsp rt rv rsz rnd rdm rrd : Reply) (w n : Nat)
    (hA : Answers L h0
      [.H5Aopen_by_name h5 path attr_name, .H5Aget_space ra.code, .H5Aget_type ra.code,
        .H5Tis_variable_str rt.code, .H5Tget_size rt.code,
        .H5Sget_simple_extent_ndims rsp.code, .H5Sget_simple_extent_dims rsp.code,
        .H5Aread ra.code rt.code]
      [ra, rsp, rt, rv, rsz, rnd, rdm, rrd])
    (ha : 0 ≤ ra.code) (hsp : 0 ≤ rsp.code) (ht : 0 ≤ rt.code) (hv : rv.code = 0)
    (hw : rsz.code = w) (hw1 : 1 ≤ w) (hnd : rnd.code = 1)
    (hdm : 0 ≤ rdm.code) (hext : rdm.extents = [n])
    (hrd : 0 ≤ rrd.code) (hbytes : rrd.bytes.length = n * w) :
    (read_attribute L h5 path attr_name h0).1 =
      .ok ((List.range n).map (fun i => String.mk (strip_trailing_nul (window rrd.bytes w i)))) ∧
    ((List.range n).map
      (fun i => String.mk (strip_trailing_nul (window rrd.bytes w i)))).length = n ∧
    ∀ i, i < n →
      (window rrd.bytes w i).length = w ∧
      (∃ k, window rrd.bytes w i =
        strip_trailing_nul (window rrd.bytes w i) ++ List.replicate k '\x00') ∧
      (strip_trailing_nul (window rrd.bytes w i)).getLast? ≠ some '\x00' := by
  refine ⟨?_, by simp, fun i hi => ⟨window_length _ w n i hbytes hi,
    (strip_trailing_nul_spec _).1, (strip_trailing_nul_spec _).2⟩⟩
  simp only [Answers, and_true] at hA
  obtain ⟨e1, e2, e3, e4, e5, e6, e7, e8⟩ := hA
  have hw0 : ¬ (w = 0) := by omega
  simp only [read_attribute, read_attribute_try, h5_obj, H5Obj_scope, h5call, e1, e2, e3, e4, e5, e6, e7, e8,
    h5_noerr_of_nonneg ha, h5_noerr_of_nonneg hsp, h5_noerr_of_nonneg ht, hv, hw, hnd,
    h5_noerr_of_nonneg hdm, h5_noerr_of_nonneg hrd, hext, ne_eq, not_true_eq_false, if_false,
    Int.toNat_ofNat, hw0]
  have hd : (write_buf [0] [n]).getD 0 0 = n := rfl
  rw [hd, traverse_eq rrd.bytes w n hbytes]

/-- Witness for C3: a 5-byte-wide buffer holding `alpha`, `b` and the empty
string, each padded with null bytes, reads back as exactly those three
strings. -/
theorem read_attribute_strings_witness :
    (read_attribute (scripted [⟨10, [], []⟩, ⟨11, [], []⟩, ⟨12, [], []⟩, ⟨0, [], []⟩,
      ⟨5, [], []⟩, ⟨1, [], []⟩, ⟨1, [3], []⟩,
      ⟨0, [], ['a', 'l', 'p', 'h', 'a', 'b', '\x00', '\x00', '\x00', '\x00',
        '\x00', '\x00', '\x00', '\x00', '\x00']⟩]) 1 "/" "names" []).1 =
      .ok ["alpha", "b", ""] :=
  (read_attribute_strings (scripted [⟨10, [], []⟩, ⟨11, [], []⟩, ⟨12, [], []⟩, ⟨0, [], []⟩,
      ⟨5, [], []⟩, ⟨1, [], []⟩, ⟨1, [3], []⟩,
      ⟨0, [], ['a', 'l', 'p', 'h', 'a', 'b', '\x00', '\x00', '\x00', '\x00',
        '\x00', '\x00', '\x00', '\x00', '\x00']⟩]) 1 "/" "names" []
    ⟨10, [], []⟩ ⟨11, [], []⟩ ⟨12, [], []⟩ ⟨0, [], []⟩ ⟨5, [], []⟩ ⟨1, [], []⟩ ⟨1, [3], []⟩
    ⟨0, [], ['a', 'l', 'p', 'h', 'a', 'b', '\x00', '\x00', '\x00', '\x00',
        '\x00', '\x00', '\x00', '\x00', '\x00']⟩ 5 3
    (by simp [Answers, scripted]) (by decide) (by decide) (by decide) rfl rfl (by decide) rfl
    (by decide) rfl (by decide) rfl).1

/-! ## Existence check and ensure-absent: proofs -/

/-- `h5_exists` throws exactly when the validity query returns a negative
code; otherwise it returns whether the code is non-zero, so an absent path
(code 0) gives `false`. -/
theorem h5_exists_result (L : Lib) (base : Int) (nm : String) (check_valid : Bool) (h : Log) :
    (h5_exists L base nm check_valid h).1 =
      if (L h (.H5LTpath_valid base nm check_valid)).code < 0 then
        .error ("error " ++ toString (L h (.H5LTpath_valid base nm check_valid)).code)
      else .ok (decide ((L h (.H5LTpath_valid base nm check_valid)).code ≠ 0)) := by
  unfold h5_exists h5call
  simp only
  by_cases hneg : (L h (.H5LTpath_valid base nm check_valid)).code < 0
  · rw [h5_noerr_of_neg hneg, if_pos hneg]
  · rw [h5_noerr_of_nonneg (not_lt.mp hneg), if_neg hneg]

/-- C6, the code at the failing input: the link `pos` exists (validity query
answers 1) and the library refuses to delete it (`H5Ldelete` answers -1).
`ensure_not_exist` discards that code and returns normally after the two
calls, and `h5_exists` afterwards still returns `true`. -/
theorem ensure_not_exist_ignores_failed_delete :
    (ensure_not_exist (scripted [⟨1, [], []⟩, ⟨-1, [], []⟩, ⟨1, [], []⟩]) true 1 "pos" []).1 =
      .ok () ∧
    (ensure_not_exist (scripted [⟨1, [], []⟩, ⟨-1, [], []⟩, ⟨1, [], []⟩]) true 1 "pos" []).2 =
      [⟨.H5LTpath_valid 1 "pos" true, ⟨1, [], []⟩⟩, ⟨.H5Ldelete 1 "pos", ⟨-1, [], []⟩⟩] ∧
    (h5_exists (scripted [⟨1, [], []⟩, ⟨-1, [], []⟩, ⟨1, [], []⟩]) 1 "pos" true
      (ensure_not_exist (scripted [⟨1, [], []⟩, ⟨-1, [], []⟩, ⟨1, [], []⟩]) true 1 "pos"
        []).2).1 = .ok true :=
  ⟨rfl, rfl, rfl⟩

end h5
